import Mathlib

/-!
Verification of the panel-layout model of the `panels` repository.

The definitions below are shallow embeddings of the TypeScript sources:

* `src/components/PanelConfigurator.tsx` — the panel-slot data model
  (`PanelSlot`, `PanelGroup`, `PanelLayout`) and the click-driven
  configurator state machine (`handleSlotClick`, `handlePanelClick`,
  `handleSlotClear`, `removePanelFromTabGroup`, `toggleTabMode`,
  `removePanelFromLayout`).
* `src/components/TabGroup.tsx` — the tab-group renderer's active-index
  computation.
* the most complete `ThreePanelLayout` implementation (the variant using
  `flushSync` and a panel-group handle) — the drag-resize guards
  (`handleLeftResize`, `handleRightResize`) and the frame-by-frame
  collapse/expand animation loop (`animatePanel`).

Machine numbers (`number`) are modelled as `ℚ`; JavaScript `undefined`
results are modelled with `Option`.
-/

namespace Panels

/-- Group kind: the `type` field of `PanelGroup` (`'tabs' | 'tiles'`). -/
inductive GroupKind
  | tabs
  | tiles
deriving DecidableEq, Repr

/-- Tab strip position (`'top' | 'bottom' | 'left' | 'right'`). -/
inductive TabPos
  | top
  | bottom
  | left
  | right
deriving DecidableEq, Repr

/-- `TabsConfig` from PanelConfigurator.tsx; all fields optional. -/
structure TabsConfig where
  defaultActiveTab : Option Int := none
  tabPosition : Option TabPos := none
  centered : Option Bool := none
deriving DecidableEq, Repr

/-- Tile direction (`'horizontal' | 'vertical' | 'grid'`). -/
inductive TileDirection
  | horizontal
  | vertical
  | grid
deriving DecidableEq, Repr

/-- `TilesConfig` from PanelConfigurator.tsx; all fields optional. -/
structure TilesConfig where
  direction : Option TileDirection := none
  columns : Option Int := none
  rows : Option Int := none
  tileSizes : Option (List ℚ) := none
deriving DecidableEq, Repr

/-- The union `TabsConfig | TilesConfig` used for a group's `config` field. -/
inductive GroupConfig
  | tabsCfg (c : TabsConfig)
  | tilesCfg (c : TilesConfig)
deriving DecidableEq, Repr

/-- `PanelGroup`: `{ type, panels, config? }`.  The TypeScript field `type`
is a Lean keyword and is embedded as `gtype`. -/
structure PanelGroup where
  gtype : GroupKind
  panels : List String
  config : Option GroupConfig := none
deriving DecidableEq, Repr

/-- `PanelSlot = string | null | PanelGroup`. -/
inductive PanelSlot
  | single (id : String)
  | empty
  | group (g : PanelGroup)
deriving DecidableEq, Repr

/-- `PanelLayout`: three named slots. -/
structure PanelLayout where
  left : PanelSlot
  middle : PanelSlot
  right : PanelSlot
deriving DecidableEq, Repr

/-- `SlotPosition = 'left' | 'middle' | 'right'`. -/
inductive SlotPosition
  | left
  | middle
  | right
deriving DecidableEq, Repr

/-- Read one slot of a layout. -/
def PanelLayout.get (l : PanelLayout) : SlotPosition → PanelSlot
  | .left => l.left
  | .middle => l.middle
  | .right => l.right

/-- Functionally update one slot of a layout (the TS code copies the layout
object and overwrites the field). -/
def PanelLayout.set (l : PanelLayout) : SlotPosition → PanelSlot → PanelLayout
  | .left, s => { l with left := s }
  | .middle, s => { l with middle := s }
  | .right, s => { l with right := s }

/-- `isGroup` helper: the slot is a `PanelGroup` object. -/
def isGroup : PanelSlot → Bool
  | .group _ => true
  | _ => false

/-- `getPanelIdsFromSlot` helper from PanelConfigurator.tsx. -/
def getPanelIdsFromSlot : PanelSlot → List String
  | .empty => []
  | .single id => [id]
  | .group g => g.panels

/-- All panel ids appearing in the layout, in slot order (the id lists that
`isPanelInUse` scans). -/
def layoutIds (l : PanelLayout) : List String :=
  getPanelIdsFromSlot l.left ++ getPanelIdsFromSlot l.middle ++ getPanelIdsFromSlot l.right

/-- Filter a panel id out of a group, then apply the group-collapse steps of
the source: 0 members → `null`, 1 member → that single panel, otherwise the
group with the filtered list (this exact block appears in both
`removePanelFromLayout` and `removePanelFromTabGroup`). -/
def collapseGroup (g : PanelGroup) (panelId : String) : PanelSlot :=
  match g.panels.filter (fun id => id != panelId) with
  | [] => .empty
  | [x] => .single x
  | filtered => .group { g with panels := filtered }

/-- One slot's part of `removePanelFromLayout`: a matching single panel
becomes `null`; a group is filtered and collapsed; anything else is kept. -/
def removeFromSlot (slot : PanelSlot) (panelId : String) : PanelSlot :=
  match slot with
  | .single id => if id = panelId then .empty else .single id
  | .empty => .empty
  | .group g => collapseGroup g panelId

/-- `removePanelFromLayout` from PanelConfigurator.tsx: apply the per-slot
removal to the three positions. -/
def removePanelFromLayout (layout : PanelLayout) (panelId : String) : PanelLayout :=
  { left := removeFromSlot layout.left panelId
    middle := removeFromSlot layout.middle panelId
    right := removeFromSlot layout.right panelId }

/-- The group config written by `toggleTabMode` when enabling tab mode:
`{ defaultActiveTab: 0, tabPosition: 'top' }`. -/
def defaultTabsConfig : GroupConfig :=
  .tabsCfg { defaultActiveTab := some 0, tabPosition := some TabPos.top }

/-- `toggleTabMode` from PanelConfigurator.tsx (the layout transformation it
hands to `onChange`).  When the slot is a tabs group it collapses to its
first member (or `null`); otherwise the slot is replaced by a fresh tabs
group whose panel list is `[slot]` when the slot held a single panel and
`[]` otherwise — in particular a tiles group's members are dropped. -/
def toggleTabMode (layout : PanelLayout) (position : SlotPosition) : PanelLayout :=
  match layout.get position with
  | .group g =>
      if g.gtype = GroupKind.tabs then
        layout.set position (match g.panels with
          | [] => .empty
          | p :: _ => .single p)
      else
        layout.set position (.group { gtype := .tabs, panels := [], config := some defaultTabsConfig })
  | .single id =>
      layout.set position (.group { gtype := .tabs, panels := [id], config := some defaultTabsConfig })
  | .empty =>
      layout.set position (.group { gtype := .tabs, panels := [], config := some defaultTabsConfig })

/-- Configurator selection: `{type:'slot'}` or `{type:'panel'}`; `none`
models the `null` selection. -/
inductive Selection
  | slot (position : SlotPosition)
  | panel (id : String)
deriving DecidableEq, Repr

/-- The configurator's state: the host-owned layout value together with the
ephemeral selection. -/
structure ConfigState where
  layout : PanelLayout
  selection : Option Selection
deriving DecidableEq, Repr

/-- The slot-swap step of `handleSlotClick`: `temp = layout[sel]`,
`layout[sel] = layout[pos]`, `layout[pos] = temp`. -/
def swapSlots (layout : PanelLayout) (a b : SlotPosition) : PanelLayout :=
  (layout.set a (layout.get b)).set b (layout.get a)

/-- The replace-slot-with-panel step shared by both click handlers: remove
the panel from wherever it is, then overwrite the target slot with it. -/
def assignSingle (layout : PanelLayout) (panelId : String) (position : SlotPosition) : PanelLayout :=
  (removePanelFromLayout layout panelId).set position (.single panelId)

/-- The add-to-tab-group step shared by both click handlers: remove the
panel from the layout, then, if the target slot still holds a tabs group,
append the panel to that group's list. -/
def addPanelToTabsSlot (layout : PanelLayout) (position : SlotPosition) (panelId : String) : PanelLayout :=
  let newLayout := removePanelFromLayout layout panelId
  match newLayout.get position with
  | .group g =>
      if g.gtype = GroupKind.tabs then
        newLayout.set position (.group { g with panels := g.panels ++ [panelId] })
      else newLayout
  | _ => newLayout

/-- `handleSlotClick`: the new state paired with whether `onChange` fired.
Branches follow the source: no selection arms the slot; a slot selection
swaps (or no-ops on the same slot, keeping the selection); a panel
selection adds to a tabs group (keeping the selection) or replaces the
slot (clearing it). -/
def handleSlotClick (s : ConfigState) (position : SlotPosition) : ConfigState × Bool :=
  match s.selection with
  | none => (⟨s.layout, some (.slot position)⟩, false)
  | some (.slot selPos) =>
      if selPos = position then (s, false)
      else (⟨swapSlots s.layout selPos position, none⟩, true)
  | some (.panel panelId) =>
      match s.layout.get position with
      | .group g =>
          if g.gtype = GroupKind.tabs then
            if panelId ∈ g.panels then (⟨s.layout, none⟩, false)
            else (⟨addPanelToTabsSlot s.layout position panelId, some (.panel panelId)⟩, true)
          else (⟨assignSingle s.layout panelId position, none⟩, true)
      | _ => (⟨assignSingle s.layout panelId position, none⟩, true)

/-- `handlePanelClick`: the new state paired with whether `onChange` fired.
With a slot selection the clicked panel is added to that slot's tabs group
or assigned to the slot, and the selection is cleared in every branch;
otherwise the panel becomes (or replaces) the selection. -/
def handlePanelClick (s : ConfigState) (panelId : String) : ConfigState × Bool :=
  match s.selection with
  | none => (⟨s.layout, some (.panel panelId)⟩, false)
  | some (.slot selPos) =>
      match s.layout.get selPos with
      | .group g =>
          if g.gtype = GroupKind.tabs then
            if panelId ∈ g.panels then (⟨s.layout, none⟩, false)
            else (⟨addPanelToTabsSlot s.layout selPos panelId, none⟩, true)
          else (⟨assignSingle s.layout panelId selPos, none⟩, true)
      | _ => (⟨assignSingle s.layout panelId selPos, none⟩, true)
  | some (.panel _) => (⟨s.layout, some (.panel panelId)⟩, false)

/-- `handleSlotClear`: set the slot to `null` and clear the selection. -/
def handleSlotClear (s : ConfigState) (position : SlotPosition) : ConfigState × Bool :=
  (⟨s.layout.set position .empty, none⟩, true)

/-- `removePanelFromTabGroup` as a layout transformation: filter the id out
of the tabs group at the position and collapse; a non-tabs slot is left
unchanged (the handler returns early). -/
def removePanelFromTabGroupLayout (layout : PanelLayout) (position : SlotPosition) (panelId : String) : PanelLayout :=
  match layout.get position with
  | .group g =>
      if g.gtype = GroupKind.tabs then layout.set position (collapseGroup g panelId)
      else layout
  | _ => layout

/-- `removePanelFromTabGroup` on the configurator state (the selection is
not touched by this handler). -/
def removePanelFromTabGroup (s : ConfigState) (position : SlotPosition) (panelId : String) : ConfigState :=
  ⟨removePanelFromTabGroupLayout s.layout position panelId, s.selection⟩

/-- The `isGroup(slot) && slot.type === 'tabs'` check used throughout the
configurator (`isTabModeSlot` and the inline guards). -/
def isTabsGroup : PanelSlot → Bool
  | .group g => g.gtype == GroupKind.tabs
  | _ => false

/-- A slot holding a group with fewer than two members (the state the spec
calls "not a meaningful group state"). -/
def isUndersizedGroup : PanelSlot → Bool
  | .group g => g.panels.length < 2
  | _ => false

/-- The configurator's user-reachable mutating inputs. -/
inductive ConfigOp
  | clickSlot (position : SlotPosition)
  | clickPanel (id : String)
  | clearSlot (position : SlotPosition)
  | removeFromGroup (position : SlotPosition) (id : String)
deriving DecidableEq, Repr

/-- Apply one configurator input to the state. -/
def applyOp (s : ConfigState) : ConfigOp → ConfigState
  | .clickSlot p => (handleSlotClick s p).1
  | .clickPanel id => (handlePanelClick s id).1
  | .clearSlot p => (handleSlotClear s p).1
  | .removeFromGroup p id => removePanelFromTabGroup s p id

/-- Apply a sequence of configurator inputs. -/
def applyOps (s : ConfigState) (ops : List ConfigOp) : ConfigState :=
  ops.foldl applyOp s

/-! TabGroup.tsx: the renderer's active-tab computation. -/

/-- Catalog entry with content (`PanelDefinitionWithContent`); the opaque
`content` renderable is not interpreted by the index computation and is
omitted. -/
structure PanelDefinitionWithContent where
  id : String
  label : String
deriving DecidableEq, Repr

/-- `tabPanels` in TabGroup.tsx: look each id up in the catalog and skip the
ids that are not found. -/
def tabPanelsOf (panelIds : List String) (panels : List PanelDefinitionWithContent) :
    List PanelDefinitionWithContent :=
  panelIds.filterMap (fun id => panels.find? (fun p => p.id == id))

/-- The initial `activeTabIndex` state: `defaultActiveTab` with default 0. -/
def initialActiveTab (config : TabsConfig) : Int :=
  config.defaultActiveTab.getD 0

/-- `safeActiveIndex = Math.min(activeTabIndex, tabPanels.length - 1)` —
note there is no lower clamp in the source. -/
def safeActiveIndex (activeTabIndex : Int) (tabPanels : List PanelDefinitionWithContent) : Int :=
  min activeTabIndex ((tabPanels.length : Int) - 1)

/-- JavaScript array indexing: `undefined` outside `[0, length)`. -/
def jsIndex {α : Type} (l : List α) (i : Int) : Option α :=
  if 0 ≤ i then l.get? i.toNat else none

/-- `activePanel = tabPanels[safeActiveIndex]` at first render. -/
def activePanel (panelIds : List String) (panels : List PanelDefinitionWithContent)
    (config : TabsConfig) : Option PanelDefinitionWithContent :=
  jsIndex (tabPanelsOf panelIds panels) (safeActiveIndex (initialActiveTab config) (tabPanelsOf panelIds panels))

/-! ThreePanelLayout: drag-resize guards and the animation frame loop, from
the most complete implementation of the component (the variant with
`flushSync` and the panel-group layout handle). -/

/-- The component state relevant to resizing: per-side committed size,
collapsed flag and animating flag. -/
structure TPLState where
  leftSize : ℚ
  rightSize : ℚ
  leftCollapsed : Bool
  rightCollapsed : Bool
  leftAnimating : Bool
  rightAnimating : Bool
deriving DecidableEq, Repr

/-- `handleLeftResize`: accepted only when neither side is animating;
stores the size and clears the collapsed flag when the size is positive. -/
def handleLeftResize (s : TPLState) (size : ℚ) : TPLState :=
  if !s.leftAnimating && !s.rightAnimating then
    let s1 := { s with leftSize := size }
    if size > 0 then { s1 with leftCollapsed := false } else s1
  else s

/-- `handleRightResize`: mirror image of `handleLeftResize`. -/
def handleRightResize (s : TPLState) (size : ℚ) : TPLState :=
  if !s.leftAnimating && !s.rightAnimating then
    let s1 := { s with rightSize := size }
    if size > 0 then { s1 with rightCollapsed := false } else s1
  else s

/-- Animation progress: `Math.min(elapsed / animationDuration, 1)`. -/
def animProgress (elapsed duration : ℚ) : ℚ :=
  min (elapsed / duration) 1

/-- The easing applied each frame:
`progress < 0.5 ? 4p³ : 1 - (-2p+2)³/2`. -/
def easedProgress (p : ℚ) : ℚ :=
  if p < 1 / 2 then 4 * p * p * p
  else 1 - (-2 * p + 2) ^ 3 / 2

/-- `newSize = fromSize + (toSize - fromSize) * eased`. -/
def interpSize (fromSize toSize p : ℚ) : ℚ :=
  fromSize + (toSize - fromSize) * easedProgress p

/-- One animation frame as observed by the split primitive: the size handed
to the layout/resize call, and whether the native `collapse()` was invoked
on this frame. -/
structure AnimFrame where
  size : ℚ
  collapseCalled : Bool
deriving DecidableEq, Repr

/-- The frame loop of `animatePanel`, driven by the elapsed times of the
successive animation-frame callbacks: while `progress < 1` the frame
applies the interpolated size and reschedules; on the first frame with
`progress = 1` it applies the final size and invokes the native collapse
exactly when `toSize == 0`, and the loop stops. -/
def animFrames (fromSize toSize duration : ℚ) : List ℚ → List AnimFrame
  | [] => []
  | elapsed :: rest =>
      let p := animProgress elapsed duration
      let sz := interpSize fromSize toSize p
      if p < 1 then ⟨sz, false⟩ :: animFrames fromSize toSize duration rest
      else [⟨sz, toSize == 0⟩]

/-! Basic lemmas about slots, layouts and the removal operation. -/

theorem get_set_same (l : PanelLayout) (pos : SlotPosition) (s : PanelSlot) :
    (l.set pos s).get pos = s := by
  cases pos <;> rfl

theorem get_set_other (l : PanelLayout) (p q : SlotPosition) (s : PanelSlot) (h : q ≠ p) :
    (l.set p s).get q = l.get q := by
  cases p <;> cases q <;> first | rfl | exact absurd rfl h

theorem get_removePanelFromLayout (l : PanelLayout) (pid : String) (pos : SlotPosition) :
    (removePanelFromLayout l pid).get pos = removeFromSlot (l.get pos) pid := by
  cases pos <;> rfl

theorem collapseGroup_ids (g : PanelGroup) (pid : String) :
    getPanelIdsFromSlot (collapseGroup g pid) = g.panels.filter (fun id => id != pid) := by
  unfold collapseGroup
  rcases h : g.panels.filter (fun id => id != pid) with _ | ⟨x, _ | ⟨y, l⟩⟩ <;>
    simp [getPanelIdsFromSlot]

theorem ids_removeFromSlot_sublist (s : PanelSlot) (pid : String) :
    List.Sublist (getPanelIdsFromSlot (removeFromSlot s pid)) (getPanelIdsFromSlot s) := by
  cases s with
  | empty => simp [removeFromSlot, getPanelIdsFromSlot]
  | single id =>
      by_cases h : id = pid <;> simp [removeFromSlot, h, getPanelIdsFromSlot]
  | group g =>
      rw [removeFromSlot, collapseGroup_ids]
      exact List.filter_sublist _

theorem not_mem_removeFromSlot (s : PanelSlot) (pid : String) :
    pid ∉ getPanelIdsFromSlot (removeFromSlot s pid) := by
  cases s with
  | empty => simp [removeFromSlot, getPanelIdsFromSlot]
  | single id =>
      by_cases h : id = pid <;> simp [removeFromSlot, h, getPanelIdsFromSlot]
      exact fun hc => h hc.symm
  | group g =>
      rw [removeFromSlot, collapseGroup_ids]
      simp

theorem layoutIds_sublist_remove (l : PanelLayout) (pid : String) :
    List.Sublist (layoutIds (removePanelFromLayout l pid)) (layoutIds l) := by
  unfold layoutIds removePanelFromLayout
  exact ((ids_removeFromSlot_sublist l.left pid).append
    (ids_removeFromSlot_sublist l.middle pid)).append (ids_removeFromSlot_sublist l.right pid)

theorem not_mem_layoutIds_remove (l : PanelLayout) (pid : String) :
    pid ∉ layoutIds (removePanelFromLayout l pid) := by
  unfold layoutIds removePanelFromLayout
  simp only [List.mem_append]
  push_neg
  exact ⟨⟨not_mem_removeFromSlot _ _, not_mem_removeFromSlot _ _⟩, not_mem_removeFromSlot _ _⟩

theorem nodup_layoutIds_remove (l : PanelLayout) (pid : String)
    (h : (layoutIds l).Nodup) : (layoutIds (removePanelFromLayout l pid)).Nodup :=
  h.sublist (layoutIds_sublist_remove l pid)

theorem mem_layoutIds_of_mem_slot (l : PanelLayout) (pos : SlotPosition) (x : String)
    (h : x ∈ getPanelIdsFromSlot (l.get pos)) : x ∈ layoutIds l := by
  cases pos <;> simp [layoutIds, PanelLayout.get] at * <;> tauto

/-! Duplicate-freedom machinery: every configurator operation preserves
`(layoutIds l).Nodup`. -/

theorem nodup_set_mono (l : PanelLayout) (pos : SlotPosition) (s : PanelSlot)
    (hc : ∀ x : String, (getPanelIdsFromSlot s).count x ≤ (getPanelIdsFromSlot (l.get pos)).count x)
    (hn : (layoutIds l).Nodup) : (layoutIds (l.set pos s)).Nodup := by
  rw [List.nodup_iff_count_le_one] at hn ⊢
  intro x
  have h1 := hn x
  have h2 := hc x
  cases pos <;>
    simp only [layoutIds, PanelLayout.set, PanelLayout.get, List.count_append] at * <;> omega

theorem nodup_set_insert (l : PanelLayout) (pos : SlotPosition) (s : PanelSlot) (pid : String)
    (hc : ∀ x : String, x ≠ pid →
      (getPanelIdsFromSlot s).count x ≤ (getPanelIdsFromSlot (l.get pos)).count x)
    (hp : (getPanelIdsFromSlot s).count pid ≤ 1)
    (hfresh : pid ∉ layoutIds l)
    (hn : (layoutIds l).Nodup) : (layoutIds (l.set pos s)).Nodup := by
  rw [List.nodup_iff_count_le_one] at hn ⊢
  intro x
  have h1 := hn x
  by_cases hx : x = pid
  · subst hx
    have hz : (layoutIds l).count x = 0 := List.count_eq_zero.mpr hfresh
    cases pos <;>
      simp only [layoutIds, PanelLayout.set, PanelLayout.get, List.count_append] at * <;> omega
  · have h2 := hc x hx
    cases pos <;>
      simp only [layoutIds, PanelLayout.set, PanelLayout.get, List.count_append] at * <;> omega

theorem layoutIds_swap_perm (l : PanelLayout) (a b : SlotPosition) :
    (layoutIds (swapSlots l a b)).Perm (layoutIds l) := by
  refine List.perm_iff_count.mpr fun x => ?_
  cases a <;> cases b <;>
    simp only [swapSlots, PanelLayout.set, PanelLayout.get, layoutIds, List.count_append] <;> omega

theorem assignSingle_nodup (l : PanelLayout) (pid : String) (pos : SlotPosition)
    (hn : (layoutIds l).Nodup) : (layoutIds (assignSingle l pid pos)).Nodup := by
  unfold assignSingle
  refine nodup_set_insert _ _ _ pid ?_ ?_ (not_mem_layoutIds_remove l pid)
    (nodup_layoutIds_remove l pid hn)
  · intro x hx
    have hz : (getPanelIdsFromSlot (PanelSlot.single pid)).count x = 0 := by
      rw [List.count_eq_zero]
      simp [getPanelIdsFromSlot, hx]
    rw [hz]
    exact Nat.zero_le _
  · simp [getPanelIdsFromSlot]

theorem addPanelToTabsSlot_eq_tabs (l : PanelLayout) (pos : SlotPosition) (pid : String)
    (g : PanelGroup) (hg : (removePanelFromLayout l pid).get pos = PanelSlot.group g)
    (ht : g.gtype = GroupKind.tabs) :
    addPanelToTabsSlot l pos pid
      = (removePanelFromLayout l pid).set pos (.group { g with panels := g.panels ++ [pid] }) := by
  simp only [addPanelToTabsSlot, hg, ht, if_true]

theorem addPanelToTabsSlot_eq_not_tabs (l : PanelLayout) (pos : SlotPosition) (pid : String)
    (g : PanelGroup) (hg : (removePanelFromLayout l pid).get pos = PanelSlot.group g)
    (ht : ¬g.gtype = GroupKind.tabs) :
    addPanelToTabsSlot l pos pid = removePanelFromLayout l pid := by
  simp only [addPanelToTabsSlot, hg]
  rw [if_neg ht]

theorem addPanelToTabsSlot_nodup (l : PanelLayout) (pos : SlotPosition) (pid : String)
    (hn : (layoutIds l).Nodup) : (layoutIds (addPanelToTabsSlot l pos pid)).Nodup := by
  have hn' := nodup_layoutIds_remove l pid hn
  have hfresh := not_mem_layoutIds_remove l pid
  cases hg : (removePanelFromLayout l pid).get pos with
  | single id => simp only [addPanelToTabsSlot, hg]; exact hn'
  | empty => simp only [addPanelToTabsSlot, hg]; exact hn'
  | group g =>
      by_cases ht : g.gtype = GroupKind.tabs
      · rw [addPanelToTabsSlot_eq_tabs l pos pid g hg ht]
        have hpid : pid ∉ g.panels := by
          intro hmem
          exact hfresh (mem_layoutIds_of_mem_slot _ pos pid (by rw [hg]; exact hmem))
        refine nodup_set_insert _ _ _ pid ?_ ?_ hfresh hn'
        · intro x hx
          rw [hg]
          simp only [getPanelIdsFromSlot, List.count_append]
          have hz : List.count x [pid] = 0 := by
            rw [List.count_eq_zero]
            simp [hx]
          omega
        · simp only [getPanelIdsFromSlot, List.count_append]
          have hz : List.count pid g.panels = 0 := List.count_eq_zero.mpr hpid
          simp [hz]
      · rw [addPanelToTabsSlot_eq_not_tabs l pos pid g hg ht]
        exact hn'

theorem removePanelFromTabGroupLayout_eq_tabs (l : PanelLayout) (pos : SlotPosition)
    (pid : String) (g : PanelGroup) (hg : l.get pos = PanelSlot.group g)
    (ht : g.gtype = GroupKind.tabs) :
    removePanelFromTabGroupLayout l pos pid = l.set pos (collapseGroup g pid) := by
  simp only [removePanelFromTabGroupLayout, hg, ht, if_true]

theorem removePanelFromTabGroupLayout_eq_not_tabs (l : PanelLayout) (pos : SlotPosition)
    (pid : String) (g : PanelGroup) (hg : l.get pos = PanelSlot.group g)
    (ht : ¬g.gtype = GroupKind.tabs) :
    removePanelFromTabGroupLayout l pos pid = l := by
  simp only [removePanelFromTabGroupLayout, hg]
  rw [if_neg ht]

theorem applyOp_nodup (s : ConfigState) (op : ConfigOp)
    (hn : (layoutIds s.layout).Nodup) : (layoutIds (applyOp s op).layout).Nodup := by
  cases op with
  | clickSlot p =>
      cases hsel : s.selection with
      | none => simp only [applyOp, handleSlotClick, hsel]; exact hn
      | some sel =>
          cases sel with
          | slot selPos =>
              by_cases h : selPos = p
              · simp only [applyOp, handleSlotClick, hsel, h, if_true]; exact hn
              · simp only [applyOp, handleSlotClick, hsel]
                rw [if_neg h]
                exact (layoutIds_swap_perm s.layout selPos p).nodup_iff.mpr hn
          | panel pid =>
              cases hslot : s.layout.get p with
              | group g =>
                  by_cases ht : g.gtype = GroupKind.tabs
                  · by_cases hm : pid ∈ g.panels
                    · simp only [applyOp, handleSlotClick, hsel, hslot, ht, if_true, hm]
                      exact hn
                    · simp only [applyOp, handleSlotClick, hsel, hslot, ht, if_true]
                      rw [if_neg hm]
                      exact addPanelToTabsSlot_nodup s.layout p pid hn
                  · simp only [applyOp, handleSlotClick, hsel, hslot]
                    rw [if_neg ht]
                    exact assignSingle_nodup s.layout pid p hn
              | single id =>
                  simp only [applyOp, handleSlotClick, hsel, hslot]
                  exact assignSingle_nodup s.layout pid p hn
              | empty =>
                  simp only [applyOp, handleSlotClick, hsel, hslot]
                  exact assignSingle_nodup s.layout pid p hn
  | clickPanel pid =>
      cases hsel : s.selection with
      | none => simp only [applyOp, handlePanelClick, hsel]; exact hn
      | some sel =>
          cases sel with
          | panel q => simp only [applyOp, handlePanelClick, hsel]; exact hn
          | slot selPos =>
              cases hslot : s.layout.get selPos with
              | group g =>
                  by_cases ht : g.gtype = GroupKind.tabs
                  · by_cases hm : pid ∈ g.panels
                    · simp only [applyOp, handlePanelClick, hsel, hslot, ht, if_true, hm]
                      exact hn
                    · simp only [applyOp, handlePanelClick, hsel, hslot, ht, if_true]
                      rw [if_neg hm]
                      exact addPanelToTabsSlot_nodup s.layout selPos pid hn
                  · simp only [applyOp, handlePanelClick, hsel, hslot]
                    rw [if_neg ht]
                    exact assignSingle_nodup s.layout pid selPos hn
              | single id =>
                  simp only [applyOp, handlePanelClick, hsel, hslot]
                  exact assignSingle_nodup s.layout pid selPos hn
              | empty =>
                  simp only [applyOp, handlePanelClick, hsel, hslot]
                  exact assignSingle_nodup s.layout pid selPos hn
  | clearSlot p =>
      simp only [applyOp, handleSlotClear]
      exact nodup_set_mono _ _ _ (fun x => by simp [getPanelIdsFromSlot]) hn
  | removeFromGroup p pid =>
      simp only [applyOp, removePanelFromTabGroup]
      cases hg : s.layout.get p with
      | single id => simp only [removePanelFromTabGroupLayout, hg]; exact hn
      | empty => simp only [removePanelFromTabGroupLayout, hg]; exact hn
      | group g =>
          by_cases ht : g.gtype = GroupKind.tabs
          · rw [removePanelFromTabGroupLayout_eq_tabs s.layout p pid g hg ht]
            refine nodup_set_mono _ _ _ (fun x => ?_) hn
            rw [collapseGroup_ids, hg]
            exact (List.filter_sublist _).count_le x
          · rw [removePanelFromTabGroupLayout_eq_not_tabs s.layout p pid g hg ht]
            exact hn

theorem applyOps_nodup (ops : List ConfigOp) (s : ConfigState)
    (hn : (layoutIds s.layout).Nodup) : (layoutIds (applyOps s ops).layout).Nodup := by
  induction ops generalizing s with
  | nil => exact hn
  | cons op rest ih => exact ih (applyOp s op) (applyOp_nodup s op hn)

theorem slots_disjoint_of_nodup (l : PanelLayout) (p q : SlotPosition) (x : String)
    (hn : (layoutIds l).Nodup) (hpq : p ≠ q)
    (hp : x ∈ getPanelIdsFromSlot (l.get p)) : x ∉ getPanelIdsFromSlot (l.get q) := by
  intro hq
  rw [List.nodup_iff_count_le_one] at hn
  have h1 := hn x
  have c1 : (getPanelIdsFromSlot (l.get p)).count x ≠ 0 :=
    fun h0 => (List.count_eq_zero.mp h0) hp
  have c2 : (getPanelIdsFromSlot (l.get q)).count x ≠ 0 :=
    fun h0 => (List.count_eq_zero.mp h0) hq
  cases p <;> cases q <;> first
    | exact hpq rfl
    | (simp only [layoutIds, PanelLayout.get, List.count_append] at h1 c1 c2; omega)

/-- C1: starting from a duplicate-free layout, any sequence of the
configurator's mutating operations (slot clicks, panel clicks, slot clear,
remove-from-group) keeps every panel id in at most one slot: an id found
among the occupants of one slot (single occupants and group members alike)
is absent from every other slot. -/
theorem c1_no_duplicate_placement (s₀ : ConfigState) (ops : List ConfigOp)
    (p q : SlotPosition) (x : String)
    (hnodup : (layoutIds s₀.layout).Nodup) (hpq : p ≠ q)
    (hmem : x ∈ getPanelIdsFromSlot ((applyOps s₀ ops).layout.get p)) :
    x ∉ getPanelIdsFromSlot ((applyOps s₀ ops).layout.get q) :=
  slots_disjoint_of_nodup _ p q x (applyOps_nodup ops s₀ hnodup) hpq hmem

/-- Witness for C1: a concrete run (arm the left slot, click the right slot
to swap) after which the moved panel sits only in the right slot. -/
theorem c1_no_duplicate_placement_witness :
    (layoutIds (⟨.single "a", .empty, .empty⟩ : PanelLayout)).Nodup ∧
    SlotPosition.right ≠ SlotPosition.left ∧
    "a" ∈ getPanelIdsFromSlot
      ((applyOps ⟨⟨.single "a", .empty, .empty⟩, none⟩
        [.clickSlot .left, .clickSlot .right]).layout.get .right) ∧
    "a" ∉ getPanelIdsFromSlot
      ((applyOps ⟨⟨.single "a", .empty, .empty⟩, none⟩
        [.clickSlot .left, .clickSlot .right]).layout.get .left) :=
  ⟨by decide, by decide, by decide,
    c1_no_duplicate_placement ⟨⟨.single "a", .empty, .empty⟩, none⟩
      [.clickSlot .left, .clickSlot .right] .right .left "a"
      (by decide) (by decide) (by decide)⟩

/-! Swap involution (C4). -/

/-- C4: swapping two distinct slots twice restores the original layout
exactly, whatever the two slots hold (groups included). -/
theorem c4_swap_involution (l : PanelLayout) (a b : SlotPosition) (hab : a ≠ b) :
    swapSlots (swapSlots l a b) a b = l := by
  cases a <;> cases b <;> first | exact absurd rfl hab | rfl

/-- Witness for C4 at a concrete layout holding a group and a single. -/
theorem c4_swap_involution_witness :
    SlotPosition.left ≠ SlotPosition.middle ∧
    swapSlots (swapSlots ⟨.group ⟨.tabs, ["a", "b"], none⟩, .single "c", .empty⟩ .left .middle)
      .left .middle = ⟨.group ⟨.tabs, ["a", "b"], none⟩, .single "c", .empty⟩ :=
  ⟨by decide,
    c4_swap_involution ⟨.group ⟨.tabs, ["a", "b"], none⟩, .single "c", .empty⟩ .left .middle
      (by decide)⟩

/-! Idempotence of removal (C5). -/

theorem mem_of_mem_filter_ne (l : List String) (pid x : String)
    (h : x ∈ l.filter (fun id => id != pid)) : x ≠ pid := by
  have := List.of_mem_filter h
  simpa using this

theorem filter_ne_self (l : List String) (pid : String) (h : pid ∉ l) :
    l.filter (fun id => id != pid) = l := by
  refine List.filter_eq_self.mpr fun a ha => ?_
  have : a ≠ pid := fun he => h (he ▸ ha)
  simpa using this

theorem removeFromSlot_idem (s : PanelSlot) (pid : String) :
    removeFromSlot (removeFromSlot s pid) pid = removeFromSlot s pid := by
  cases s with
  | empty => rfl
  | single id =>
      by_cases h : id = pid <;> simp [removeFromSlot, h]
  | group g =>
      show removeFromSlot (collapseGroup g pid) pid = collapseGroup g pid
      unfold collapseGroup
      rcases hf : g.panels.filter (fun id => id != pid) with _ | ⟨x, _ | ⟨y, rest⟩⟩
      · rfl
      · have hx : x ≠ pid := mem_of_mem_filter_ne g.panels pid x (by rw [hf]; exact List.mem_singleton_self x)
        simp [removeFromSlot, hx]
      · have hall : ∀ a ∈ x :: y :: rest, a ≠ pid := by
          intro a ha
          exact mem_of_mem_filter_ne g.panels pid a (by rw [hf]; exact ha)
        have hfix : (x :: y :: rest).filter (fun id => id != pid) = x :: y :: rest := by
          refine List.filter_eq_self.mpr fun a ha => ?_
          simpa using hall a ha
        simp only [removeFromSlot, collapseGroup, hfix]

theorem removePanelFromLayout_idem (l : PanelLayout) (pid : String) :
    removePanelFromLayout (removePanelFromLayout l pid) pid = removePanelFromLayout l pid := by
  unfold removePanelFromLayout
  simp [removeFromSlot_idem]

theorem removeFromSlot_noop (s : PanelSlot) (pid : String)
    (hmem : pid ∉ getPanelIdsFromSlot s) (hsz : isUndersizedGroup s = false) :
    removeFromSlot s pid = s := by
  cases s with
  | empty => rfl
  | single id =>
      have : id ≠ pid := by
        intro he
        exact hmem (by simp [getPanelIdsFromSlot, he])
      simp [removeFromSlot, this]
  | group g =>
      have hpm : pid ∉ g.panels := hmem
      have hfeq : g.panels.filter (fun id => id != pid) = g.panels :=
        filter_ne_self g.panels pid hpm
      show collapseGroup g pid = PanelSlot.group g
      rw [collapseGroup]
      rcases hp : g.panels with _ | ⟨x, _ | ⟨y, r⟩⟩
      · simp [isUndersizedGroup, hp] at hsz
      · simp [isUndersizedGroup, hp] at hsz
      · rw [hp] at hfeq
        simp only [hfeq]
        rw [← hp]

/-- C5 (amended): removal is idempotent for every layout and id, and
removing an id absent from every slot is a no-op provided no slot holds a
group with fewer than two members.  (Without that proviso the removal pass
normalizes degenerate groups, see the counterexample.) -/
theorem c5_removePanel_idempotent (l : PanelLayout) (pid : String) :
    removePanelFromLayout (removePanelFromLayout l pid) pid = removePanelFromLayout l pid ∧
    (pid ∉ layoutIds l → (∀ pos : SlotPosition, isUndersizedGroup (l.get pos) = false) →
      removePanelFromLayout l pid = l) := by
  refine ⟨removePanelFromLayout_idem l pid, fun hmem hsz => ?_⟩
  have hm : pid ∉ getPanelIdsFromSlot l.left ∧ pid ∉ getPanelIdsFromSlot l.middle ∧
      pid ∉ getPanelIdsFromSlot l.right := by
    simp only [layoutIds, List.mem_append] at hmem
    tauto
  have h1 := removeFromSlot_noop l.left pid hm.1 (hsz .left)
  have h2 := removeFromSlot_noop l.middle pid hm.2.1 (hsz .middle)
  have h3 := removeFromSlot_noop l.right pid hm.2.2 (hsz .right)
  unfold removePanelFromLayout
  rw [h1, h2, h3]

/-- Counterexample to C5 as stated: `"y"` occurs in no slot of a layout
whose left slot is a one-member tabs group, yet removing `"y"` changes the
layout (the degenerate group is normalized to a single panel). -/
theorem c5_noop_counterexample :
    "y" ∉ layoutIds ⟨.group ⟨.tabs, ["x"], none⟩, .empty, .empty⟩ ∧
    removePanelFromLayout ⟨.group ⟨.tabs, ["x"], none⟩, .empty, .empty⟩ "y"
      ≠ ⟨.group ⟨.tabs, ["x"], none⟩, .empty, .empty⟩ := by
  constructor
  · decide
  · decide

/-- Witness for C5 at a concrete duplicate-free layout with no degenerate
groups: removing an absent id once or twice leaves the layout unchanged. -/
theorem c5_removePanel_idempotent_witness :
    removePanelFromLayout
        (removePanelFromLayout ⟨.single "a", .group ⟨.tabs, ["b", "c"], none⟩, .empty⟩ "z") "z"
      = removePanelFromLayout ⟨.single "a", .group ⟨.tabs, ["b", "c"], none⟩, .empty⟩ "z" ∧
    ("z" ∉ layoutIds ⟨.single "a", .group ⟨.tabs, ["b", "c"], none⟩, .empty⟩ ∧
      removePanelFromLayout ⟨.single "a", .group ⟨.tabs, ["b", "c"], none⟩, .empty⟩ "z"
        = ⟨.single "a", .group ⟨.tabs, ["b", "c"], none⟩, .empty⟩) :=
  ⟨(c5_removePanel_idempotent ⟨.single "a", .group ⟨.tabs, ["b", "c"], none⟩, .empty⟩ "z").1,
    by decide,
    (c5_removePanel_idempotent ⟨.single "a", .group ⟨.tabs, ["b", "c"], none⟩, .empty⟩ "z").2
      (by decide) (by intro pos; cases pos <;> decide)⟩

/-! Same-slot click (C7). -/

/-- C7: in the armed-slot state, clicking the armed slot again is a
complete no-op: the layout is unchanged, the slot stays selected, and the
`onChange` callback does not fire. -/
theorem c7_same_slot_click_noop (l : PanelLayout) (pos : SlotPosition) :
    handleSlotClick ⟨l, some (Selection.slot pos)⟩ pos
      = (⟨l, some (Selection.slot pos)⟩, false) := by
  simp [handleSlotClick]

/-! Group-collapse normalization (C2). -/

theorem collapseGroup_not_undersized (g : PanelGroup) (pid : String) :
    isUndersizedGroup (collapseGroup g pid) = false := by
  unfold collapseGroup
  rcases hf : g.panels.filter (fun id => id != pid) with _ | ⟨x, _ | ⟨y, rest⟩⟩ <;>
    simp [isUndersizedGroup]

theorem removeFromSlot_not_undersized (s : PanelSlot) (pid : String) :
    isUndersizedGroup (removeFromSlot s pid) = false := by
  cases s with
  | empty => rfl
  | single id => by_cases h : id = pid <;> simp [removeFromSlot, h, isUndersizedGroup]
  | group g => exact collapseGroup_not_undersized g pid

/-- C2 (amended): after `removePanel` no slot holds a group with fewer than
two members (a filtered group with 0 members became `Empty`, with 1 member
became `SinglePanel` — stated explicitly in the last two conjuncts), and
after remove-from-group at a tabs position that position holds no such
group either.  The claim's stronger clause — that no undersized `Group` is
ever observable under any operation — is refuted separately:
`toggleTabMode` creates an empty tabs group. -/
theorem c2_removal_normalizes_groups (l : PanelLayout) (pid : String) :
    (∀ pos, isUndersizedGroup ((removePanelFromLayout l pid).get pos) = false) ∧
    (∀ pos g, l.get pos = PanelSlot.group g → g.gtype = GroupKind.tabs →
      isUndersizedGroup ((removePanelFromTabGroupLayout l pos pid).get pos) = false) ∧
    (∀ pos g, l.get pos = PanelSlot.group g → g.panels.filter (fun id => id != pid) = [] →
      (removePanelFromLayout l pid).get pos = PanelSlot.empty) ∧
    (∀ pos g x, l.get pos = PanelSlot.group g →
      g.panels.filter (fun id => id != pid) = [x] →
      (removePanelFromLayout l pid).get pos = PanelSlot.single x) := by
  refine ⟨fun pos => ?_, fun pos g hg ht => ?_, fun pos g hg hf => ?_, fun pos g x hg hf => ?_⟩
  · rw [get_removePanelFromLayout]
    exact removeFromSlot_not_undersized _ pid
  · rw [removePanelFromTabGroupLayout_eq_tabs l pos pid g hg ht, get_set_same]
    exact collapseGroup_not_undersized g pid
  · rw [get_removePanelFromLayout, hg]
    show collapseGroup g pid = PanelSlot.empty
    simp only [collapseGroup, hf]
  · rw [get_removePanelFromLayout, hg]
    show collapseGroup g pid = PanelSlot.single x
    simp only [collapseGroup, hf]

/-- Counterexample to C2's "never observable" clause: enabling tab mode on
an empty slot puts a zero-member tabs group into the layout. -/
theorem c2_small_group_observable :
    (toggleTabMode ⟨.empty, .empty, .empty⟩ .left).get .left
        = PanelSlot.group ⟨GroupKind.tabs, [], some defaultTabsConfig⟩ ∧
    isUndersizedGroup ((toggleTabMode ⟨.empty, .empty, .empty⟩ .left).get .left) = true := by
  constructor
  · decide
  · decide

/-- Witness for C2 at scenario 3's group: removing `"terminal"` from the
two-member tabs group leaves `SinglePanel("console")` and no undersized
group anywhere. -/
theorem c2_removal_normalizes_groups_witness :
    isUndersizedGroup
        ((removePanelFromLayout ⟨.group ⟨.tabs, ["console", "terminal"], none⟩, .empty, .empty⟩
          "terminal").get .left) = false ∧
    (removePanelFromLayout ⟨.group ⟨.tabs, ["console", "terminal"], none⟩, .empty, .empty⟩
        "terminal").get .left = PanelSlot.single "console" ∧
    isUndersizedGroup
        ((removePanelFromTabGroupLayout ⟨.group ⟨.tabs, ["console", "terminal"], none⟩, .empty, .empty⟩
          .left "terminal").get .left) = false :=
  ⟨(c2_removal_normalizes_groups ⟨.group ⟨.tabs, ["console", "terminal"], none⟩, .empty, .empty⟩
      "terminal").1 .left,
    (c2_removal_normalizes_groups ⟨.group ⟨.tabs, ["console", "terminal"], none⟩, .empty, .empty⟩
      "terminal").2.2.2 .left ⟨.tabs, ["console", "terminal"], none⟩ "console"
      (by decide) (by decide),
    (c2_removal_normalizes_groups ⟨.group ⟨.tabs, ["console", "terminal"], none⟩, .empty, .empty⟩
      "terminal").2.1 .left ⟨.tabs, ["console", "terminal"], none⟩ (by decide) (by decide)⟩

/-! Toggling group mode on a non-tabs group (C10). -/

theorem mem_slot_of_mem_layoutIds (l : PanelLayout) (x : String) (h : x ∈ layoutIds l) :
    ∃ pos, x ∈ getPanelIdsFromSlot (l.get pos) := by
  simp only [layoutIds, List.mem_append] at h
  rcases h with (h | h) | h
  · exact ⟨.left, h⟩
  · exact ⟨.middle, h⟩
  · exact ⟨.right, h⟩

/-- C10 (amended): toggling group mode at a position holding a non-tabs
group always replaces the slot with a fresh empty tabs group; when the
layout is duplicate-free, every member of the former group disappears from
the layout entirely.  (Without duplicate-freedom a member duplicated into
another slot survives there, see the counterexample.) -/
theorem c10_toggle_drops_nontabs_group (l : PanelLayout) (pos : SlotPosition) (g : PanelGroup)
    (hg : l.get pos = PanelSlot.group g) (ht : ¬g.gtype = GroupKind.tabs) :
    toggleTabMode l pos
        = l.set pos (.group ⟨GroupKind.tabs, [], some defaultTabsConfig⟩) ∧
    ((layoutIds l).Nodup → ∀ x ∈ g.panels, x ∉ layoutIds (toggleTabMode l pos)) := by
  have heq : toggleTabMode l pos
      = l.set pos (.group ⟨GroupKind.tabs, [], some defaultTabsConfig⟩) := by
    simp only [toggleTabMode, hg]
    rw [if_neg ht]
  refine ⟨heq, fun hn x hx hmem => ?_⟩
  rw [heq] at hmem
  obtain ⟨q, hq⟩ := mem_slot_of_mem_layoutIds _ x hmem
  have hqpos : q ≠ pos := by
    rintro rfl
    rw [get_set_same] at hq
    simp [getPanelIdsFromSlot] at hq
  rw [get_set_other _ _ _ _ hqpos] at hq
  have hxpos : x ∈ getPanelIdsFromSlot (l.get pos) := by rw [hg]; exact hx
  exact slots_disjoint_of_nodup l pos q x hn (fun he => hqpos he.symm) hxpos hq

/-- Counterexample to C10's parenthetical as stated: in a layout where the
tiles-group member `"x"` is duplicated into another slot, `"x"` still
appears in the layout after the toggle. -/
theorem c10_counterexample :
    (⟨.group ⟨.tiles, ["x"], none⟩, .single "x", .empty⟩ : PanelLayout).get .left
        = PanelSlot.group ⟨GroupKind.tiles, ["x"], none⟩ ∧
    "x" ∈ layoutIds (toggleTabMode ⟨.group ⟨.tiles, ["x"], none⟩, .single "x", .empty⟩ .left) := by
  constructor
  · decide
  · decide

/-- Witness for C10 at a duplicate-free layout: toggling the tiles group at
the left slot installs the fresh empty tabs group and its member `"p"` is
gone from the whole layout. -/
theorem c10_toggle_drops_nontabs_group_witness :
    toggleTabMode ⟨.group ⟨.tiles, ["p", "q"], none⟩, .single "r", .empty⟩ .left
        = (⟨.group ⟨.tiles, ["p", "q"], none⟩, .single "r", .empty⟩ : PanelLayout).set .left
            (.group ⟨GroupKind.tabs, [], some defaultTabsConfig⟩) ∧
    "p" ∉ layoutIds (toggleTabMode ⟨.group ⟨.tiles, ["p", "q"], none⟩, .single "r", .empty⟩ .left) :=
  ⟨(c10_toggle_drops_nontabs_group ⟨.group ⟨.tiles, ["p", "q"], none⟩, .single "r", .empty⟩
      .left ⟨.tiles, ["p", "q"], none⟩ (by decide) (by decide)).1,
    (c10_toggle_drops_nontabs_group ⟨.group ⟨.tiles, ["p", "q"], none⟩, .single "r", .empty⟩
      .left ⟨.tiles, ["p", "q"], none⟩ (by decide) (by decide)).2 (by decide) "p" (by decide)⟩

/-! Armed-slot panel click (C3). -/

theorem collapseGroup_of_not_mem (g : PanelGroup) (x : String)
    (hx : x ∉ g.panels) (hlen : 2 ≤ g.panels.length) :
    collapseGroup g x = PanelSlot.group g := by
  have hfeq : g.panels.filter (fun id => id != x) = g.panels := filter_ne_self g.panels x hx
  rw [collapseGroup]
  rcases hp : g.panels with _ | ⟨a, _ | ⟨b, r⟩⟩
  · rw [hp] at hlen; simp at hlen
  · rw [hp] at hlen; simp at hlen
  · rw [hp] at hfeq
    simp only [hfeq]
    rw [← hp]

/-- C3 (amended): in the armed-slot state, clicking a catalog panel always
clears the selection (the machine transitions to Idle, it does not stay
armed).  When the armed slot holds a tabs group with at least two members
not containing the clicked panel, the panel is removed from every other
slot and appended to the group's ordered list; when the group already
contains it the layout is unchanged; when the armed slot is not a tabs
group the panel is assigned to the slot as a single panel. -/
theorem c3_armed_slot_panel_click (l : PanelLayout) (pos : SlotPosition) (x : String) :
    (handlePanelClick ⟨l, some (Selection.slot pos)⟩ x).1.selection = none ∧
    (∀ g, l.get pos = PanelSlot.group g → g.gtype = GroupKind.tabs → x ∉ g.panels →
      2 ≤ g.panels.length →
      (handlePanelClick ⟨l, some (Selection.slot pos)⟩ x).1.layout.get pos
          = PanelSlot.group { g with panels := g.panels ++ [x] } ∧
      ∀ q, q ≠ pos →
        (handlePanelClick ⟨l, some (Selection.slot pos)⟩ x).1.layout.get q
          = removeFromSlot (l.get q) x) ∧
    (∀ g, l.get pos = PanelSlot.group g → g.gtype = GroupKind.tabs → x ∈ g.panels →
      (handlePanelClick ⟨l, some (Selection.slot pos)⟩ x).1.layout = l) ∧
    (isTabsGroup (l.get pos) = false →
      (handlePanelClick ⟨l, some (Selection.slot pos)⟩ x).1.layout = assignSingle l x pos) := by
  refine ⟨?_, ?_, ?_, ?_⟩
  · cases hslot : l.get pos with
    | single id => simp [handlePanelClick, hslot]
    | empty => simp [handlePanelClick, hslot]
    | group g =>
        by_cases ht : g.gtype = GroupKind.tabs
        · by_cases hm : x ∈ g.panels
          · simp [handlePanelClick, hslot, ht, hm]
          · simp [handlePanelClick, hslot, ht, hm]
        · simp only [handlePanelClick, hslot]
          rw [if_neg ht]
  · intro g hg ht hx hlen
    have hrm : (removePanelFromLayout l x).get pos = PanelSlot.group g := by
      rw [get_removePanelFromLayout, hg]
      exact collapseGroup_of_not_mem g x hx hlen
    have key := addPanelToTabsSlot_eq_tabs l pos x g hrm ht
    have heq : (handlePanelClick ⟨l, some (Selection.slot pos)⟩ x).1.layout
        = addPanelToTabsSlot l pos x := by
      simp only [handlePanelClick, hg, ht, if_true]
      rw [if_neg hx]
    constructor
    · rw [heq, key, get_set_same]
    · intro q hq
      rw [heq, key, get_set_other _ _ _ _ hq, get_removePanelFromLayout]
  · intro g hg ht hm
    simp [handlePanelClick, hg, ht, hm]
  · intro hnt
    cases hslot : l.get pos with
    | single id => simp [handlePanelClick, hslot]
    | empty => simp [handlePanelClick, hslot]
    | group g =>
        have ht : ¬g.gtype = GroupKind.tabs := by
          rw [hslot] at hnt
          simpa [isTabsGroup] using hnt
        simp only [handlePanelClick, hslot]
        rw [if_neg ht]

/-- Counterexample to C3 as stated: with the left slot armed and holding an
(empty) tabs group, clicking panel `"c"` neither keeps the machine in the
armed state (the selection becomes `none`) nor appends `"c"` to the group
(the group is destroyed by the removal pass and the slot ends up empty). -/
theorem c3_counterexample :
    (handlePanelClick ⟨⟨.group ⟨.tabs, [], some defaultTabsConfig⟩, .empty, .empty⟩,
        some (.slot .left)⟩ "c").1.selection = none ∧
    (handlePanelClick ⟨⟨.group ⟨.tabs, [], some defaultTabsConfig⟩, .empty, .empty⟩,
        some (.slot .left)⟩ "c").1.layout.left = PanelSlot.empty := by
  constructor
  · decide
  · decide

/-- Witness for C3: with the left slot armed on a two-member tabs group and
`"c"` sitting in the middle slot, clicking `"c"` appends it to the group,
empties the middle slot, and clears the selection. -/
theorem c3_armed_slot_panel_click_witness :
    (handlePanelClick ⟨⟨.group ⟨.tabs, ["a", "b"], none⟩, .single "c", .empty⟩,
        some (.slot .left)⟩ "c").1.selection = none ∧
    (handlePanelClick ⟨⟨.group ⟨.tabs, ["a", "b"], none⟩, .single "c", .empty⟩,
        some (.slot .left)⟩ "c").1.layout.get .left
      = PanelSlot.group ⟨GroupKind.tabs, ["a", "b", "c"], none⟩ ∧
    (handlePanelClick ⟨⟨.group ⟨.tabs, ["a", "b"], none⟩, .single "c", .empty⟩,
        some (.slot .left)⟩ "c").1.layout.get .middle = PanelSlot.empty :=
  ⟨(c3_armed_slot_panel_click ⟨.group ⟨.tabs, ["a", "b"], none⟩, .single "c", .empty⟩
      .left "c").1,
    ((c3_armed_slot_panel_click ⟨.group ⟨.tabs, ["a", "b"], none⟩, .single "c", .empty⟩
      .left "c").2.1 ⟨.tabs, ["a", "b"], none⟩ (by decide) (by decide) (by decide)
      (by decide)).1,
    by
      rw [((c3_armed_slot_panel_click ⟨.group ⟨.tabs, ["a", "b"], none⟩, .single "c", .empty⟩
        .left "c").2.1 ⟨.tabs, ["a", "b"], none⟩ (by decide) (by decide) (by decide)
        (by decide)).2 .middle (by decide)]
      decide⟩

/-! Active-tab index at render time (C6). -/

/-- C6 (amended): with a non-empty resolved tab list, the renderer's
active index is `min(storedDefault, length - 1)`: a stored value at or
beyond the list length is clamped down to the last valid index and a
panel is rendered, but a stored value below 0 is not clamped — the index
stays negative and no active panel is produced (the access yields
`undefined`; nothing is thrown in either case). -/
theorem c6_active_tab_clamping (panelIds : List String)
    (panels : List PanelDefinitionWithContent) (config : TabsConfig)
    (hne : 0 < (tabPanelsOf panelIds panels).length) :
    (0 ≤ initialActiveTab config →
      0 ≤ safeActiveIndex (initialActiveTab config) (tabPanelsOf panelIds panels) ∧
      safeActiveIndex (initialActiveTab config) (tabPanelsOf panelIds panels)
          < ((tabPanelsOf panelIds panels).length : Int) ∧
      (activePanel panelIds panels config).isSome = true) ∧
    (initialActiveTab config < 0 → activePanel panelIds panels config = none) := by
  constructor
  · intro hd
    have hlen1 : (1 : Int) ≤ ((tabPanelsOf panelIds panels).length : Int) := by
      exact_mod_cast hne
    have h0 : 0 ≤ safeActiveIndex (initialActiveTab config) (tabPanelsOf panelIds panels) := by
      rw [safeActiveIndex]
      exact le_min hd (by omega)
    have hlt : safeActiveIndex (initialActiveTab config) (tabPanelsOf panelIds panels)
        < ((tabPanelsOf panelIds panels).length : Int) := by
      rw [safeActiveIndex]
      have := min_le_right (initialActiveTab config) (((tabPanelsOf panelIds panels).length : Int) - 1)
      omega
    refine ⟨h0, hlt, ?_⟩
    rw [activePanel, jsIndex, if_pos h0]
    have htoNat : ((safeActiveIndex (initialActiveTab config) (tabPanelsOf panelIds panels)).toNat)
        < (tabPanelsOf panelIds panels).length := by
      omega
    rw [List.get?_eq_get htoNat]
    rfl
  · intro hd
    have hneg : safeActiveIndex (initialActiveTab config) (tabPanelsOf panelIds panels) < 0 := by
      rw [safeActiveIndex]
      have := min_le_left (initialActiveTab config) (((tabPanelsOf panelIds panels).length : Int) - 1)
      omega
    rw [activePanel, jsIndex, if_neg (by omega)]

/-- Counterexample to C6 as stated: with a stored `defaultActiveTab` of
`-1` and two resolvable panels the claimed clamp into `[0, 1]` does not
happen — the index used is `-1` and no active panel is rendered. -/
theorem c6_counterexample :
    safeActiveIndex (initialActiveTab { defaultActiveTab := some (-1) })
        (tabPanelsOf ["a", "b"] [⟨"a", "A"⟩, ⟨"b", "B"⟩]) = -1 ∧
    activePanel ["a", "b"] [⟨"a", "A"⟩, ⟨"b", "B"⟩] { defaultActiveTab := some (-1) } = none := by
  constructor
  · decide
  · decide

/-- Witness for C6: a stored index of 5 over two panels is clamped to 1 and
a panel is rendered. -/
theorem c6_active_tab_clamping_witness :
    0 < (tabPanelsOf ["a", "b"] [⟨"a", "A"⟩, ⟨"b", "B"⟩]).length ∧
    0 ≤ initialActiveTab { defaultActiveTab := some 5 } ∧
    0 ≤ safeActiveIndex (initialActiveTab { defaultActiveTab := some 5 })
        (tabPanelsOf ["a", "b"] [⟨"a", "A"⟩, ⟨"b", "B"⟩]) ∧
    safeActiveIndex (initialActiveTab { defaultActiveTab := some 5 })
        (tabPanelsOf ["a", "b"] [⟨"a", "A"⟩, ⟨"b", "B"⟩])
      < ((tabPanelsOf ["a", "b"] [⟨"a", "A"⟩, ⟨"b", "B"⟩]).length : Int) ∧
    (activePanel ["a", "b"] [⟨"a", "A"⟩, ⟨"b", "B"⟩] { defaultActiveTab := some 5 }).isSome
      = true :=
  ⟨by decide, by decide,
    ((c6_active_tab_clamping ["a", "b"] [⟨"a", "A"⟩, ⟨"b", "B"⟩] { defaultActiveTab := some 5 }
      (by decide)).1 (by decide)).1,
    ((c6_active_tab_clamping ["a", "b"] [⟨"a", "A"⟩, ⟨"b", "B"⟩] { defaultActiveTab := some 5 }
      (by decide)).1 (by decide)).2.1,
    ((c6_active_tab_clamping ["a", "b"] [⟨"a", "A"⟩, ⟨"b", "B"⟩] { defaultActiveTab := some 5 }
      (by decide)).1 (by decide)).2.2⟩

/-! Drag-resize guard (C8). -/

/-- C8: a drag-resize report is accepted only when neither side is
animating.  If either animating flag is set the whole state is unchanged
(in particular the side's committed size and collapsed flag); when neither
is set the reported size is stored and the side's collapsed flag is
cleared exactly when the size is positive. -/
theorem c8_drag_resize_guard (s : TPLState) (n : ℚ) :
    ((s.leftAnimating = true ∨ s.rightAnimating = true) →
      handleLeftResize s n = s ∧ handleRightResize s n = s) ∧
    (s.leftAnimating = false → s.rightAnimating = false →
      (handleLeftResize s n).leftSize = n ∧
      (0 < n → (handleLeftResize s n).leftCollapsed = false) ∧
      (n ≤ 0 → (handleLeftResize s n).leftCollapsed = s.leftCollapsed) ∧
      (handleRightResize s n).rightSize = n ∧
      (0 < n → (handleRightResize s n).rightCollapsed = false) ∧
      (n ≤ 0 → (handleRightResize s n).rightCollapsed = s.rightCollapsed)) := by
  constructor
  · rintro (h | h) <;> constructor <;> simp [handleLeftResize, handleRightResize, h]
  · intro hl hr
    refine ⟨?_, fun hn => ?_, fun hn => ?_, ?_, fun hn => ?_, fun hn => ?_⟩ <;>
      by_cases hp : n > 0 <;>
      simp [handleLeftResize, handleRightResize, hl, hr, hp] <;>
      linarith

/-- Witness for C8: with the left side animating, a report of 5 is dropped
entirely; with neither side animating, the same report is committed and
uncollapses the side. -/
theorem c8_drag_resize_guard_witness :
    ((⟨20, 20, false, false, true, false⟩ : TPLState).leftAnimating = true ∨
      (⟨20, 20, false, false, true, false⟩ : TPLState).rightAnimating = true) ∧
    handleLeftResize ⟨20, 20, false, false, true, false⟩ 5
      = ⟨20, 20, false, false, true, false⟩ ∧
    (handleLeftResize ⟨20, 20, true, false, false, false⟩ 5).leftSize = 5 ∧
    (handleLeftResize ⟨20, 20, true, false, false, false⟩ 5).leftCollapsed = false :=
  ⟨Or.inl rfl,
    ((c8_drag_resize_guard ⟨20, 20, false, false, true, false⟩ 5).1 (Or.inl rfl)).1,
    ((c8_drag_resize_guard ⟨20, 20, true, false, false, false⟩ 5).2 rfl rfl).1,
    ((c8_drag_resize_guard ⟨20, 20, true, false, false, false⟩ 5).2 rfl rfl).2.1
      (by norm_num)⟩

/-! Easing-curve facts for the collapse animation (C9). -/

theorem cube_lt_cube (a b : ℚ) (ha : 0 ≤ a) (hab : a < b) : a ^ 3 < b ^ 3 :=
  pow_lt_pow_left₀ hab ha (by norm_num)

theorem easedProgress_strictMono (p q : ℚ) (hp : 0 ≤ p) (hpq : p < q) (hq : q ≤ 1) :
    easedProgress p < easedProgress q := by
  unfold easedProgress
  split_ifs with h1 h2 h2
  · nlinarith [cube_lt_cube p q hp hpq]
  · have ha : (0 : ℚ) ≤ -2 * q + 2 := by linarith
    have hb : -2 * q + 2 ≤ 1 := by linarith
    have hcube : (-2 * q + 2) ^ 3 ≤ 1 := pow_le_one₀ ha hb
    nlinarith [cube_lt_cube p (1 / 2) hp h1]
  · linarith
  · have h2q : -2 * q + 2 < -2 * p + 2 := by linarith
    have hqn : (0 : ℚ) ≤ -2 * q + 2 := by linarith
    have := cube_lt_cube (-2 * q + 2) (-2 * p + 2) hqn h2q
    linarith

theorem easedProgress_nonneg (p : ℚ) (hp : 0 ≤ p) (hp1 : p ≤ 1) : 0 ≤ easedProgress p := by
  unfold easedProgress
  split_ifs with h
  · positivity
  · have ha : (0 : ℚ) ≤ -2 * p + 2 := by linarith
    have hb : -2 * p + 2 ≤ 1 := by linarith
    have hcube : (-2 * p + 2) ^ 3 ≤ 1 := pow_le_one₀ ha hb
    linarith

theorem easedProgress_le_one (p : ℚ) (hp : 0 ≤ p) (hp1 : p ≤ 1) : easedProgress p ≤ 1 := by
  unfold easedProgress
  split_ifs with h
  · nlinarith [cube_lt_cube p (1 / 2) hp h]
  · have ha : (0 : ℚ) ≤ -2 * p + 2 := by linarith
    have hpos : 0 ≤ (-2 * p + 2) ^ 3 := pow_nonneg ha 3
    linarith

theorem easedProgress_one : easedProgress 1 = 1 := by
  norm_num [easedProgress]

/-! Frame-loop facts for the collapse animation (C9). -/

theorem animProgress_nonneg (t d : ℚ) (ht : 0 ≤ t) (hd : 0 < d) : 0 ≤ animProgress t d :=
  le_min (div_nonneg ht hd.le) zero_le_one

theorem animProgress_le_one (t d : ℚ) : animProgress t d ≤ 1 :=
  min_le_right _ _

theorem animProgress_lt (t u d : ℚ) (hd : 0 < d) (htu : t < u)
    (hp : animProgress t d < 1) : animProgress t d < animProgress u d := by
  rcases le_or_lt (u / d) 1 with h | h
  · have hdiv : t / d < u / d := by
      apply div_lt_div_of_pos_right htu hd
    calc animProgress t d ≤ t / d := min_le_left _ _
      _ < u / d := hdiv
      _ = animProgress u d := (min_eq_left h).symm
  · have : animProgress u d = 1 := min_eq_right h.le
    rw [this]
    exact hp

theorem animProgress_eq_one (t d : ℚ) (hd : 0 < d) (ht : d ≤ t) : animProgress t d = 1 := by
  rw [animProgress, min_eq_right]
  rw [le_div_iff₀ hd]
  linarith

theorem interp_lt_interp (p q : ℚ) (hp : 0 ≤ p) (hpq : p < q) (hq : q ≤ 1) :
    interpSize 20 0 q < interpSize 20 0 p := by
  have := easedProgress_strictMono p q hp hpq hq
  simp only [interpSize]
  linarith

theorem interp_bounds (p : ℚ) (hp : 0 ≤ p) (hp1 : p ≤ 1) :
    0 ≤ interpSize 20 0 p ∧ interpSize 20 0 p ≤ 20 := by
  have h1 := easedProgress_nonneg p hp hp1
  have h2 := easedProgress_le_one p hp hp1
  constructor <;> simp only [interpSize] <;> linarith

theorem animFrames_head_size (fromS toS d t : ℚ) (ts : List ℚ) :
    ((animFrames fromS toS d (t :: ts)).map AnimFrame.size).head?
      = some (interpSize fromS toS (animProgress t d)) := by
  simp only [animFrames]
  split_ifs <;> rfl

theorem animFrames_sizes_chain (ts : List ℚ) (hc : List.Chain' (· < ·) ts)
    (h0 : ∀ t ∈ ts, 0 ≤ t) :
    List.Chain' (fun a b => b < a) ((animFrames 20 0 300 ts).map AnimFrame.size) := by
  induction ts with
  | nil => simp [animFrames]
  | cons t rest ih =>
      have h0t : 0 ≤ t := h0 t (by simp)
      have h0rest : ∀ u ∈ rest, 0 ≤ u := fun u hu => h0 u (by simp [hu])
      simp only [animFrames]
      split_ifs with hp
      · rw [List.map_cons, List.chain'_cons']
        refine ⟨?_, ih hc.tail h0rest⟩
        intro y hy
        cases rest with
        | nil => simp [animFrames] at hy
        | cons u rest' =>
            rw [animFrames_head_size] at hy
            have hy' : interpSize 20 0 (animProgress u 300) = y := by simpa using hy
            subst hy'
            have htu : t < u := (List.chain'_cons.mp hc).1
            exact interp_lt_interp (animProgress t 300) (animProgress u 300)
              (animProgress_nonneg t 300 h0t (by norm_num))
              (animProgress_lt t u 300 (by norm_num) htu hp)
              (animProgress_le_one u 300)
      · simp

theorem animFrames_sizes_bounds (ts : List ℚ) (h0 : ∀ t ∈ ts, 0 ≤ t) :
    ∀ f ∈ animFrames 20 0 300 ts, 0 ≤ f.size ∧ f.size ≤ 20 := by
  induction ts with
  | nil => simp [animFrames]
  | cons t rest ih =>
      have h0t : 0 ≤ t := h0 t (by simp)
      have hb := interp_bounds (animProgress t 300)
        (animProgress_nonneg t 300 h0t (by norm_num)) (animProgress_le_one t 300)
      simp only [animFrames]
      split_ifs with hp
      · intro f hf
        rcases List.mem_cons.mp hf with rfl | hmem
        · exact hb
        · exact ih (fun u hu => h0 u (by simp [hu])) f hmem
      · intro f hf
        rw [List.mem_singleton] at hf
        subst hf
        exact hb

theorem animFrames_getLast (ts : List ℚ) (h0 : ∀ t ∈ ts, 0 ≤ t)
    (hcomp : ∃ t ∈ ts, 300 ≤ t) :
    (animFrames 20 0 300 ts).getLast? = some ⟨0, true⟩ := by
  induction ts with
  | nil => simp at hcomp
  | cons t rest ih =>
      simp only [animFrames]
      split_ifs with hp
      · have ht : t < 300 := by
          by_contra hge
          push_neg at hge
          rw [animProgress_eq_one t 300 (by norm_num) hge] at hp
          exact lt_irrefl 1 hp
        have hcomp' : ∃ u ∈ rest, 300 ≤ u := by
          rcases hcomp with ⟨u, hu, h300⟩
          rcases List.mem_cons.mp hu with rfl | hmem
          · linarith
          · exact ⟨u, hmem, h300⟩
        have hrec := ih (fun u hu => h0 u (by simp [hu])) hcomp'
        rcases hf : animFrames 20 0 300 rest with _ | ⟨f, fs⟩
        · rw [hf] at hrec
          simp at hrec
        · rw [List.getLast?_cons_cons]
          rw [← hf]
          exact hrec
      · have hp1 : animProgress t 300 = 1 :=
          le_antisymm (animProgress_le_one t 300) (not_lt.mp hp)
        rw [hp1]
        have : interpSize 20 0 1 = 0 := by
          rw [interpSize, easedProgress_one]
          norm_num
        simp [this]

theorem animFrames_dropLast_no_collapse (fromS toS d : ℚ) (ts : List ℚ) :
    ∀ f ∈ (animFrames fromS toS d ts).dropLast, f.collapseCalled = false := by
  induction ts with
  | nil => simp [animFrames]
  | cons t rest ih =>
      simp only [animFrames]
      split_ifs with hp
      · rcases hf : animFrames fromS toS d rest with _ | ⟨g, gs⟩
        · simp [hf]
        · intro x hx
          rw [List.dropLast_cons₂] at hx
          rcases List.mem_cons.mp hx with rfl | hmem
          · rfl
          · exact ih x (by rw [hf]; exact hmem)
      · simp

/-- C9: collapsing from size 20 to 0 over 300 ms, driven by any strictly
increasing sequence of nonnegative elapsed times that reaches the
duration, makes the animation loop hand the resize primitive a strictly
decreasing sequence of sizes, all within `[0, 20]`; the final frame's size
is exactly 0 and the native collapse operation is invoked on that final
frame and on no earlier frame. -/
theorem c9_collapse_animation (ts : List ℚ)
    (hchain : List.Chain' (· < ·) ts) (h0 : ∀ t ∈ ts, 0 ≤ t)
    (hcomp : ∃ t ∈ ts, 300 ≤ t) :
    List.Chain' (fun a b => b < a) ((animFrames 20 0 300 ts).map AnimFrame.size) ∧
    (∀ f ∈ animFrames 20 0 300 ts, 0 ≤ f.size ∧ f.size ≤ 20) ∧
    (animFrames 20 0 300 ts).getLast? = some ⟨0, true⟩ ∧
    (∀ f ∈ (animFrames 20 0 300 ts).dropLast, f.collapseCalled = false) :=
  ⟨animFrames_sizes_chain ts hchain h0, animFrames_sizes_bounds ts h0,
    animFrames_getLast ts h0 hcomp, animFrames_dropLast_no_collapse 20 0 300 ts⟩

/-- Witness for C9 at the frame times 100, 200, 300 ms. -/
theorem c9_collapse_animation_witness :
    List.Chain' (· < ·) ([100, 200, 300] : List ℚ) ∧
    (∀ t ∈ ([100, 200, 300] : List ℚ), 0 ≤ t) ∧
    (∃ t ∈ ([100, 200, 300] : List ℚ), 300 ≤ t) ∧
    List.Chain' (fun a b => b < a) ((animFrames 20 0 300 [100, 200, 300]).map AnimFrame.size) ∧
    (animFrames 20 0 300 [100, 200, 300]).getLast? = some ⟨0, true⟩ ∧
    (∀ f ∈ (animFrames 20 0 300 [100, 200, 300]).dropLast, f.collapseCalled = false) := by
  have hchain : List.Chain' (· < ·) ([100, 200, 300] : List ℚ) := by
    norm_num [List.chain'_cons, List.chain'_singleton]
  have h0 : ∀ t ∈ ([100, 200, 300] : List ℚ), 0 ≤ t := by
    intro t ht
    rcases List.mem_cons.mp ht with rfl | ht
    · norm_num
    rcases List.mem_cons.mp ht with rfl | ht
    · norm_num
    rcases List.mem_cons.mp ht with rfl | ht
    · norm_num
    · simp at ht
  have hcomp : ∃ t ∈ ([100, 200, 300] : List ℚ), 300 ≤ t := ⟨300, by norm_num, le_refl 300⟩
  have h := c9_collapse_animation [100, 200, 300] hchain h0 hcomp
  exact ⟨hchain, h0, hcomp, h.1, h.2.2.1, h.2.2.2⟩

end Panels
